import Mathlib

/-!
# Verification of the quickfeed ingestion / merge / pagination engine

Shallow embedding of the media-feed core of the `quickfeed` repository:

* `src/lib/nostr.ts` — `parseImetaTag`, `parseEvent`, the live-subscription
  delivery filter of `subscribeToMediaFeed`, and `fetchMediaEvents`
  (the shared body of `getHistoricalMedia` / `getOlderEvents`).
* `src/routes/+page.svelte` — the feed page state (`mediaEvents`,
  `seenEventIds`, `hasMoreEvents`, `oldestLoadedTimestamp`, `error`,
  `isLoadingMore`), the live-subscription merge handler installed in
  `onMount`, and the `loadMoreEvents` pagination routine with its
  bounded retry recursion.

JavaScript-specific behaviour is modelled explicitly: string falsiness
(the empty string is falsy), number falsiness (`0` and `null` are falsy,
so the `!oldestLoadedTimestamp` guard also fires on the value `0`), and
`parseInt` returning `NaN` (a value, not an absence) on unparsable input.
External effects (the relay pool) enter as explicit query oracles; the
`setTimeout`-driven retry recursion of `loadMoreEvents` is modelled as a
sequential bounded recursion, which matches the source because each
scheduled retry runs only after the previous invocation finished.
-/

namespace Quickfeed

/-- A raw nostr event as delivered by `nostr-tools` (`Event`):
opaque id, author pubkey, creation timestamp (seconds), integer kind,
content body, and the ordered tag list (each tag an ordered string list). -/
structure NEvent where
  id : String
  pubkey : String
  created_at : Int
  kind : Nat
  content : String
  tags : List (List String)
deriving Repr, DecidableEq

/-- A JavaScript number that is either an actual integer or `NaN`;
`parseInt` produces `NaN` on unparsable input rather than failing. -/
inductive JsNum where
  | nan : JsNum
  | int : Int → JsNum
deriving Repr, DecidableEq

/-- `MediaItem` from `src/lib/types.ts`: a parsed media descriptor.
`url` and `mimeType` are required; the rest are optional. -/
structure MediaItem where
  url : String
  mimeType : String
  dimensions : Option String
  blurhash : Option String
  alt : Option String
  x : Option String
  fallback : Option (List String)
  image : Option (List String)
  service : Option String
deriving Repr, DecidableEq

/-- `MediaEvent` from `src/lib/types.ts`: a classified feed event. -/
structure MediaEvent where
  id : String
  pubkey : String
  created_at : Int
  kind : Nat
  content : String
  tags : List (List String)
  title : Option String
  media : List MediaItem
  duration : Option JsNum
  published_at : Option JsNum
deriving Repr, DecidableEq

/-- `ImetaData` from `src/lib/types.ts`: the all-optional accumulator
record filled while scanning one `imeta` tag. -/
structure ImetaData where
  url : Option String := none
  mimeType : Option String := none
  dimensions : Option String := none
  blurhash : Option String := none
  alt : Option String := none
  x : Option String := none
  fallback : Option (List String) := none
  image : Option (List String) := none
  service : Option String := none
deriving Repr, DecidableEq

/-- JavaScript falsiness of an optional string field: `undefined` and the
empty string are falsy (`!data.url` in the source). -/
def jsFalsyStr (o : Option String) : Bool :=
  o.getD "" = ""

/-- JavaScript truthiness of the nullable numeric cursor: `null` and `0`
are falsy (`!oldestLoadedTimestamp` in the source). -/
def jsTruthyTs : Option Int → Bool
  | none => false
  | some t => t ≠ 0

/-- Whitespace skipped by JavaScript `parseInt` before reading digits. -/
def isJsSpace (c : Char) : Bool :=
  c = ' ' || c = '\t' || c = '\n' || c = '\r' || c = '\x0b' || c = '\x0c'

/-- Hexadecimal digit test for the `0x` form of `parseInt`. -/
def isHexDigitChar (c : Char) : Bool :=
  c.isDigit || ('a' ≤ c && c ≤ 'f') || ('A' ≤ c && c ≤ 'F')

/-- Value of one hexadecimal digit. -/
def hexDigitVal (c : Char) : Nat :=
  if c.isDigit then c.toNat - 48
  else if 'a' ≤ c && c ≤ 'f' then c.toNat - 87
  else c.toNat - 55

/-- Value of a decimal digit string. -/
def decVal (cs : List Char) : Nat :=
  cs.foldl (fun a c => a * 10 + (c.toNat - 48)) 0

/-- Value of a hexadecimal digit string. -/
def hexVal (cs : List Char) : Nat :=
  cs.foldl (fun a c => a * 16 + hexDigitVal c) 0

/-- `parseInt` after sign handling: longest digit prefix, `0x` hex form,
`NaN` when no digit is found. -/
def jsParseIntCore (cs : List Char) : JsNum :=
  match cs with
  | '0' :: c :: rest =>
    if c = 'x' || c = 'X' then
      let ds := rest.takeWhile isHexDigitChar
      if ds.isEmpty then JsNum.nan else JsNum.int (hexVal ds)
    else
      JsNum.int (decVal (('0' :: c :: rest).takeWhile Char.isDigit))
  | _ =>
    let ds := cs.takeWhile Char.isDigit
    if ds.isEmpty then JsNum.nan else JsNum.int (decVal ds)

/-- Model of JavaScript `parseInt(s)` (radix argument omitted, as in the
source): skip leading whitespace, read an optional sign, then the longest
decimal (or `0x`-prefixed hexadecimal) digit prefix; `NaN` if none. -/
def jsParseInt (s : String) : JsNum :=
  let cs := s.toList.dropWhile isJsSpace
  match cs with
  | '-' :: rest =>
    match jsParseIntCore rest with
    | JsNum.nan => JsNum.nan
    | JsNum.int n => JsNum.int (-n)
  | '+' :: rest => jsParseIntCore rest
  | _ => jsParseIntCore cs

/-- `parseInt(tag[1])` where `tag[1]` may be absent: `parseInt(undefined)`
is `NaN`. -/
def jsParseIntOpt : Option String → JsNum
  | none => JsNum.nan
  | some s => jsParseInt s

/-- Prefix test on character lists (structural, kernel-computable). -/
def charStarts : List Char → List Char → Bool
  | [], _ => true
  | _ :: _, [] => false
  | a :: as, b :: bs => a = b && charStarts as bs

/-- `s.startsWith p` of the source, on the character content of the
strings (all recognized keys are ASCII, so character and UTF-16 code
unit counts agree). -/
def strStarts (s p : String) : Bool :=
  charStarts p.toList s.toList

/-- `s.substring(n)` of the source: drop the first `n` characters. -/
def strDrop (s : String) (n : Nat) : String :=
  String.mk (s.toList.drop n)

/-- One iteration of the scanning loop of `NostrService.parseImetaTag`
(src/lib/nostr.ts): an if/else-if chain on the key prefix of one tag
element; `fallback` and `image` append, every other recognized key
overwrites, unrecognized elements are ignored. -/
def imetaStep (data : ImetaData) (part : String) : ImetaData :=
  if strStarts part "url " then { data with url := some (strDrop part 4) }
  else if strStarts part "m " then { data with mimeType := some (strDrop part 2) }
  else if strStarts part "dim " then { data with dimensions := some (strDrop part 4) }
  else if strStarts part "blurhash " then { data with blurhash := some (strDrop part 9) }
  else if strStarts part "alt " then { data with alt := some (strDrop part 4) }
  else if strStarts part "x " then { data with x := some (strDrop part 2) }
  else if strStarts part "fallback " then
    { data with fallback := some (data.fallback.getD [] ++ [strDrop part 9]) }
  else if strStarts part "image " then
    { data with image := some (data.image.getD [] ++ [strDrop part 6]) }
  else if strStarts part "service " then { data with service := some (strDrop part 8) }
  else data

/-- `NostrService.parseImetaTag` (src/lib/nostr.ts lines 51-94): scan the
tag elements from index 1, then return `null` when `url` or `mimeType` is
missing or empty (JavaScript falsiness), else the completed descriptor. -/
def parseImetaTag (imetaTag : List String) : Option MediaItem :=
  let data := imetaTag.tail.foldl imetaStep {}
  if jsFalsyStr data.url || jsFalsyStr data.mimeType then none
  else
    some { url := data.url.getD "", mimeType := data.mimeType.getD "",
           dimensions := data.dimensions, blurhash := data.blurhash,
           alt := data.alt, x := data.x, fallback := data.fallback,
           image := data.image, service := data.service }

/-- `NostrService.parseEvent` (src/lib/nostr.ts lines 96-132): reject
kinds other than 20 and 22; otherwise build a `MediaEvent` with the first
`title` tag value, every successfully parsed `imeta` descriptor in tag
order, and `parseInt` of the first `duration` / `published_at` tag value.
Note the source constructs the event even when `media` is empty. -/
def parseEvent (event : NEvent) : Option MediaEvent :=
  if event.kind ≠ 20 ∧ event.kind ≠ 22 then none
  else
    some { id := event.id, pubkey := event.pubkey,
           created_at := event.created_at, kind := event.kind,
           content := event.content, tags := event.tags,
           title := (event.tags.find? (fun tag => tag[0]? == some "title")).bind
             (fun tag => tag[1]?),
           media := (event.tags.filter (fun tag => tag[0]? == some "imeta")).filterMap
             parseImetaTag,
           duration := (event.tags.find? (fun tag => tag[0]? == some "duration")).map
             (fun tag => jsParseIntOpt tag[1]?),
           published_at := (event.tags.find? (fun tag => tag[0]? == some "published_at")).map
             (fun tag => jsParseIntOpt tag[1]?) }

/-- The delivery filter of `NostrService.subscribeToMediaFeed`
(src/lib/nostr.ts lines 147-157): the `onevent` handler forwards a parsed
event to the page callback only when `media` is non-empty. -/
def liveEventFilter (event : NEvent) : Option MediaEvent :=
  match parseEvent event with
  | some mediaEvent =>
      if mediaEvent.media.length > 0 then some mediaEvent else none
  | none => none

/-- The comparator `(a, b) => b.created_at - a.created_at` of the source
as an ordering relation: descending creation timestamp. -/
def byCreatedDesc (a b : MediaEvent) : Prop :=
  b.created_at ≤ a.created_at

instance : DecidableRel byCreatedDesc := fun a b =>
  decidable_of_iff (b.created_at ≤ a.created_at) Iff.rfl

instance : IsTotal MediaEvent byCreatedDesc :=
  ⟨fun a b => le_total b.created_at a.created_at⟩

instance : IsTrans MediaEvent byCreatedDesc :=
  ⟨fun _ _ _ h1 h2 => le_trans h2 h1⟩

/-- JavaScript `Array.prototype.sort` with the descending-timestamp
comparator: a stable sort by key; modelled as stable insertion sort,
which yields the same list as any stable sort for this comparator. -/
def sortByCreatedDesc (l : List MediaEvent) : List MediaEvent :=
  l.insertionSort byCreatedDesc

/-- `Array.from(new Map(l.map(e => [e.id, e])).values())` of the source:
one entry per id, keyed in first-occurrence order, each holding the last
event carrying that id. -/
def dedupById (l : List MediaEvent) : List MediaEvent :=
  ((l.map (fun e => e.id)).eraseDups).filterMap
    (fun i => l.reverse.find? (fun e => e.id == i))

/-- `NostrService.fetchMediaEvents` (src/lib/nostr.ts lines 584-604),
with the relay answer of `pool.querySync` passed in explicitly: parse
every record, keep those with non-empty media, deduplicate by id, sort
descending by timestamp and truncate to `limit`. A rejected query is
caught inside the method and yields the empty list — the caller can
never observe the failure. -/
def fetchMediaEvents (queryResult : Except String (List NEvent)) (limit : Nat) :
    List MediaEvent :=
  match queryResult with
  | Except.error _ => []
  | Except.ok events =>
    let mediaEvents := (events.filterMap parseEvent).filter
      (fun e => e.media.length > 0)
    let uniqueEvents := dedupById mediaEvents
    (sortByCreatedDesc uniqueEvents).take limit

/-- The reactive state of `src/routes/+page.svelte` that the merge and
pagination paths read and write. -/
structure PageState where
  mediaEvents : List MediaEvent
  seenEventIds : List String
  hasMoreEvents : Bool
  oldestLoadedTimestamp : Option Int
  error : Option String
  isLoadingMore : Bool
deriving Repr, DecidableEq

/-- The live-subscription merge handler installed in `onMount`
(src/routes/+page.svelte lines 144-157): skip an already-seen id,
otherwise record the id, cons the event onto the feed, re-sort
descending by timestamp and truncate to the newest 100. -/
def mergeLive (s : PageState) (event : MediaEvent) : PageState :=
  if s.seenEventIds.contains event.id then s
  else
    { s with
      seenEventIds := event.id :: s.seenEventIds,
      mediaEvents := (sortByCreatedDesc (event :: s.mediaEvents)).take 100 }

/-- `Math.min(...newEvents.map(e => e.created_at))` for a non-empty list
(the source only evaluates it under `newEvents.length > 0`). -/
def minCreatedAt : List MediaEvent → Int
  | [] => 0
  | e :: es => es.foldl (fun m ev => min m ev.created_at) e.created_at

/-- The error message assigned after the retry budget is exhausted in the
catch branch of `loadMoreEvents`. -/
def loadErrorMessage : String :=
  "Failed to load more events. Please try again later."

/-- `loadMoreEvents` of src/routes/+page.svelte (lines 55-105), as a
function of the already-decoded result of
`nostrService.getOlderEvents(oldestLoadedTimestamp, 30)` at each cursor
(`Except.error` models the promise rejecting). The source recurses via
`setTimeout(() => loadMoreEvents(retryCount + 1), ...)` only under
`retryCount < 3`; this bounded recursion is encoded structurally with
`fuel = 3 - retryCount`, so `fuel = 0` is exactly `retryCount < 3`
failing. All state writes follow the source: an empty page sets
`hasMoreEvents = false`; a page with unseen events records their ids,
moves the cursor to their minimum timestamp and appends them (without
re-sorting); a duplicates-only page moves the cursor back one day
(86400 s) and retries, or sets `hasMoreEvents = false` once the budget
is spent; a rejected query retries with backoff, or sets `error` once
the budget is spent (the timers only delay the steps). -/
def loadMoreBody (getOlder : Int → Except String (List MediaEvent))
    (s : PageState) (retry : Option (PageState → PageState)) : PageState :=
  if s.isLoadingMore || !s.hasMoreEvents || !(jsTruthyTs s.oldestLoadedTimestamp) then s
  else
    match s.oldestLoadedTimestamp with
    | none => s
    | some cursor =>
      match getOlder cursor with
      | Except.error _ =>
        match retry with
        | some k => k s
        | none => { s with error := some loadErrorMessage }
      | Except.ok olderEvents =>
        if olderEvents.length = 0 then
          { s with hasMoreEvents := false }
        else
          let newEvents := olderEvents.filter
            (fun e => !(s.seenEventIds.contains e.id))
          if newEvents.length > 0 then
            { s with
              seenEventIds := newEvents.map (fun e => e.id) ++ s.seenEventIds,
              oldestLoadedTimestamp := some (minCreatedAt newEvents),
              mediaEvents := s.mediaEvents ++ newEvents }
          else
            match retry with
            | some k => k { s with oldestLoadedTimestamp := some (cursor - 86400) }
            | none => { s with hasMoreEvents := false }

/-- The bounded retry recursion: with budget `fuel + 1` the two retry
branches re-invoke the routine with budget `fuel` (and the incremented
retry count of the source); with budget `0` — the source's
`retryCount < 3` failing — they settle instead. -/
def loadMoreFuel (getOlder : Int → Except String (List MediaEvent)) :
    Nat → PageState → PageState
  | 0, s => loadMoreBody getOlder s none
  | fuel + 1, s => loadMoreBody getOlder s (some (loadMoreFuel getOlder fuel))

/-- `loadMoreEvents(retryCount)` entry point: the recursion budget left
at retry count `r` is `3 - r`. -/
def loadMoreEvents (getOlder : Int → Except String (List MediaEvent))
    (s : PageState) (retryCount : Nat) : PageState :=
  loadMoreFuel getOlder (3 - retryCount) s

/-- `getOlderEvents` composed over the raw relay answer: it always
resolves (never rejects), because `fetchMediaEvents` catches every
failure and returns `[]`. -/
def getOlderEventsModel (query : Int → Except String (List NEvent))
    (untilTs : Int) : Except String (List MediaEvent) :=
  Except.ok (fetchMediaEvents (query untilTs) 30)

/-- `loadMoreEvents` as actually wired to the service layer. -/
def loadMoreComposed (query : Int → Except String (List NEvent))
    (s : PageState) (retryCount : Nat) : PageState :=
  loadMoreEvents (getOlderEventsModel query) s retryCount

/-- Boolean check that a feed sequence is sorted by creation timestamp
in descending order. -/
def sortedDescBool : List MediaEvent → Bool
  | [] => true
  | [_] => true
  | a :: b :: t => (b.created_at ≤ a.created_at) && sortedDescBool (b :: t)

/-! ### Concrete instances used by counterexamples and witnesses -/

/-- A minimal valid media descriptor. -/
def mkItem : MediaItem :=
  { url := "https://x/a.jpg", mimeType := "image/jpeg", dimensions := none,
    blurhash := none, alt := none, x := none, fallback := none, image := none,
    service := none }

/-- A classified feed event with the given id and timestamp and one
valid media descriptor. -/
def mkME (i : String) (t : Int) : MediaEvent :=
  { id := i, pubkey := "p", created_at := t, kind := 20, content := "",
    tags := [], title := none, media := [mkItem], duration := none,
    published_at := none }

/-- Distinct event ids for bulk-generated states. -/
def natToId : Nat → String
  | 0 => "x"
  | n + 1 => "x" ++ natToId n

/-- Page state for the network-failure scenario: a feed of one event and
an initialized cursor. -/
def c1state : PageState :=
  { mediaEvents := [mkME "a1" 1000000], seenEventIds := ["a1"],
    hasMoreEvents := true, oldestLoadedTimestamp := some 1000000,
    error := none, isLoadingMore := false }

/-- A relay whose historical query always fails (network fault). -/
def c1query : Int → Except String (List NEvent) :=
  fun _ => Except.error "relay connection failure"

/-- A kind-20 record with no tags at all, hence zero `imeta`
descriptors. -/
def c2event : NEvent :=
  { id := "e2", pubkey := "p", created_at := 1, kind := 20, content := "",
    tags := [] }

/-- A kind-20 record with a lone `t` tag and zero valid `imeta` tags. -/
def c2wEvent : NEvent :=
  { id := "w2", pubkey := "p", created_at := 2, kind := 20, content := "",
    tags := [["t", "cats"]] }

/-- Feed of two events loaded historically; cursor at their minimum. -/
def c3s0 : PageState :=
  { mediaEvents := [mkME "a3" 100, mkME "b3" 50], seenEventIds := ["a3", "b3"],
    hasMoreEvents := true, oldestLoadedTimestamp := some 50, error := none,
    isLoadingMore := false }

/-- A live event older than the pagination cursor. -/
def c3live : MediaEvent := mkME "live3" 10

/-- A relay answer for the next page: one unseen event older than the
cursor (but newer than the old live event). -/
def c3query : Int → Except String (List MediaEvent) :=
  fun _ => Except.ok [mkME "n3" 40]

/-- Feed state for the duplicates-only scenario. -/
def c4s : PageState :=
  { mediaEvents := [mkME "a4" 1000000, mkME "dup4" 999000],
    seenEventIds := ["a4", "dup4"], hasMoreEvents := true,
    oldestLoadedTimestamp := some 999000, error := none,
    isLoadingMore := false }

/-- A relay that answers every page with one already-seen event strictly
older than the requested cursor. -/
def c4query : Int → Except String (List MediaEvent) :=
  fun c => Except.ok [mkME "dup4" (c - 1)]

/-- A relay that would deliver a fresh event. -/
def c4fresh : Int → Except String (List MediaEvent) :=
  fun c => Except.ok [mkME "fresh4" (c - 1)]

/-- Feed state with cursor 50 for the cursor-monotonicity scenario. -/
def c5s : PageState :=
  { mediaEvents := [mkME "a5" 100, mkME "b5" 50], seenEventIds := ["a5", "b5"],
    hasMoreEvents := true, oldestLoadedTimestamp := some 50, error := none,
    isLoadingMore := false }

/-- A relay answering with an unseen event timestamped exactly at the
cursor (allowed: the `until` bound of the query is inclusive). -/
def c5query : Int → Except String (List MediaEvent) :=
  fun _ => Except.ok [mkME "n5" 50]

/-- Witness state for cursor monotonicity. -/
def c5ws : PageState :=
  { mediaEvents := [mkME "a5w" 5], seenEventIds := ["a5w"],
    hasMoreEvents := true, oldestLoadedTimestamp := some 5, error := none,
    isLoadingMore := false }

/-- A relay that has no older events at all. -/
def c5emptyQuery : Int → Except String (List MediaEvent) :=
  fun _ => Except.ok []

/-- 101 distinct feed events, timestamps descending 101..1. -/
def c6events : List MediaEvent :=
  (List.range 101).map (fun n => mkME (natToId n) (101 - (n : Int)))

/-- A feed grown past the live bound by historical pagination. -/
def c6s : PageState :=
  { mediaEvents := c6events, seenEventIds := c6events.map (fun e => e.id),
    hasMoreEvents := true, oldestLoadedTimestamp := some 1, error := none,
    isLoadingMore := false }

/-- A duplicate of the newest event of `c6s`. -/
def c6dup : MediaEvent := mkME (natToId 0) 101

/-- A relay answer with one fresh event at the cursor. -/
def c6histQuery : Int → Except String (List MediaEvent) :=
  fun _ => Except.ok [mkME "f6" 1]

/-- Small witness state for the live bound. -/
def c6ws : PageState :=
  { mediaEvents := [], seenEventIds := [], hasMoreEvents := true,
    oldestLoadedTimestamp := none, error := none, isLoadingMore := false }

/-- Witness event for the live bound. -/
def c6we : MediaEvent := mkME "w6" 5

/-- A state that has already merged event `a7`. -/
def c7s : PageState :=
  { mediaEvents := [mkME "a7" 10], seenEventIds := ["a7"],
    hasMoreEvents := true, oldestLoadedTimestamp := some 10, error := none,
    isLoadingMore := false }

/-- The same live event again. -/
def c7e : MediaEvent := mkME "a7" 10

/-- A kind-22 record with a valid `imeta` tag and an unparsable
`duration` value. -/
def c9event : NEvent :=
  { id := "e9", pubkey := "p", created_at := 5, kind := 22, content := "",
    tags := [["imeta", "url https://x/v.mp4", "m video/mp4"],
             ["duration", "abc"]] }

/-- A kind-22 record with a valid `imeta` tag and `duration` value
`"45"`. -/
def c9wEvent : NEvent :=
  { id := "w9", pubkey := "p", created_at := 3, kind := 22, content := "",
    tags := [["duration", "45"], ["imeta", "url https://x/v.mp4", "m video/mp4"]] }

/-! ### Helper lemmas about the imeta tag scanner -/

theorem imetaStep_url_of_not (d : ImetaData) (p : String)
    (h : strStarts p "url " = false) : (imetaStep d p).url = d.url := by
  unfold imetaStep
  rw [if_neg (show ¬ (strStarts p "url " = true) by simp [h])]
  repeat' split
  all_goals rfl

theorem imetaStep_mime_of_not (d : ImetaData) (p : String)
    (h : strStarts p "m " = false) : (imetaStep d p).mimeType = d.mimeType := by
  unfold imetaStep
  split
  · rfl
  · rw [if_neg (show ¬ (strStarts p "m " = true) by simp [h])]
    repeat' split
    all_goals rfl

theorem foldl_imeta_url_of_not (parts : List String)
    (h : ∀ p ∈ parts, strStarts p "url " = false) :
    ∀ d : ImetaData, (parts.foldl imetaStep d).url = d.url := by
  induction parts with
  | nil => intro d; rfl
  | cons p t ih =>
    intro d
    rw [List.foldl_cons]
    rw [ih (fun q hq => h q (List.mem_cons_of_mem p hq))]
    exact imetaStep_url_of_not d p (h p (List.mem_cons_self p t))

theorem foldl_imeta_mime_of_not (parts : List String)
    (h : ∀ p ∈ parts, strStarts p "m " = false) :
    ∀ d : ImetaData, (parts.foldl imetaStep d).mimeType = d.mimeType := by
  induction parts with
  | nil => intro d; rfl
  | cons p t ih =>
    intro d
    rw [List.foldl_cons]
    rw [ih (fun q hq => h q (List.mem_cons_of_mem p hq))]
    exact imetaStep_mime_of_not d p (h p (List.mem_cons_self p t))

theorem imetaStep_url_space (d : ImetaData) : (imetaStep d "url ").url = some "" := rfl

theorem foldl_imeta_url_keeps (parts : List String)
    (h2 : ∀ p ∈ parts, strStarts p "url " = true → p = "url ") :
    ∀ d : ImetaData, d.url = some "" → (parts.foldl imetaStep d).url = some "" := by
  induction parts with
  | nil => intro d hd; exact hd
  | cons p t ih =>
    intro d hd
    rw [List.foldl_cons]
    by_cases hp : strStarts p "url " = true
    · have hpe : p = "url " := h2 p (List.mem_cons_self p t) hp
      subst hpe
      exact ih (fun q hq => h2 q (List.mem_cons_of_mem _ hq)) _ (imetaStep_url_space d)
    · have hpf : strStarts p "url " = false := by
        cases hv : strStarts p "url " with
        | false => rfl
        | true => exact absurd hv hp
      refine ih (fun q hq => h2 q (List.mem_cons_of_mem _ hq)) _ ?_
      rw [imetaStep_url_of_not d p hpf]
      exact hd

theorem foldl_imeta_url_mem (parts : List String)
    (h1 : "url " ∈ parts)
    (h2 : ∀ p ∈ parts, strStarts p "url " = true → p = "url ") :
    ∀ d : ImetaData, (parts.foldl imetaStep d).url = some "" := by
  induction parts with
  | nil => cases h1
  | cons p t ih =>
    intro d
    rw [List.foldl_cons]
    by_cases hp : p = "url "
    · subst hp
      exact foldl_imeta_url_keeps t
        (fun q hq => h2 q (List.mem_cons_of_mem _ hq)) _ (imetaStep_url_space d)
    · have h1t : "url " ∈ t := by
        rcases List.mem_cons.mp h1 with h | h
        · exact absurd h.symm hp
        · exact h
      exact ih h1t (fun q hq => h2 q (List.mem_cons_of_mem _ hq)) _

/-! ### Claims about the tag parser and event classifier -/

/-- C8: for every input tag, `parseImetaTag` returns `none` whenever no
element (after the discriminator) carries a `url ` entry, or none carries
an `m ` entry; the function is total, so it never raises on malformed
input. -/
theorem c8_missing_required_field_yields_none (t : List String)
    (h : (∀ p ∈ t.tail, strStarts p "url " = false) ∨
         (∀ p ∈ t.tail, strStarts p "m " = false)) :
    parseImetaTag t = none := by
  unfold parseImetaTag
  rcases h with h | h
  · have hu : (t.tail.foldl imetaStep {}).url = none :=
      foldl_imeta_url_of_not t.tail h {}
    rw [if_pos]
    rw [hu]
    rfl
  · have hm : (t.tail.foldl imetaStep {}).mimeType = none :=
      foldl_imeta_mime_of_not t.tail h {}
    rw [if_pos]
    rw [hm]
    simp [jsFalsyStr]

/-- C8 witness: a tag with an `m` entry but no `url` entry parses to
`none`. -/
theorem c8_witness : parseImetaTag ["imeta", "m image/png"] = none :=
  c8_missing_required_field_yields_none ["imeta", "m image/png"]
    (Or.inl (by decide))

theorem imetaStep_m_space (d : ImetaData) : (imetaStep d "m ").mimeType = some "" := rfl

theorem foldl_imeta_mime_keeps (parts : List String)
    (h2 : ∀ p ∈ parts, strStarts p "m " = true → p = "m ") :
    ∀ d : ImetaData, d.mimeType = some "" → (parts.foldl imetaStep d).mimeType = some "" := by
  induction parts with
  | nil => intro d hd; exact hd
  | cons p t ih =>
    intro d hd
    rw [List.foldl_cons]
    by_cases hp : strStarts p "m " = true
    · have hpe : p = "m " := h2 p (List.mem_cons_self p t) hp
      subst hpe
      exact ih (fun q hq => h2 q (List.mem_cons_of_mem _ hq)) _ (imetaStep_m_space d)
    · have hpf : strStarts p "m " = false := by
        cases hv : strStarts p "m " with
        | false => rfl
        | true => exact absurd hv hp
      refine ih (fun q hq => h2 q (List.mem_cons_of_mem _ hq)) _ ?_
      rw [imetaStep_mime_of_not d p hpf]
      exact hd

theorem foldl_imeta_mime_mem (parts : List String)
    (h1 : "m " ∈ parts)
    (h2 : ∀ p ∈ parts, strStarts p "m " = true → p = "m ") :
    ∀ d : ImetaData, (parts.foldl imetaStep d).mimeType = some "" := by
  induction parts with
  | nil => cases h1
  | cons p t ih =>
    intro d
    rw [List.foldl_cons]
    by_cases hp : p = "m "
    · subst hp
      exact foldl_imeta_mime_keeps t
        (fun q hq => h2 q (List.mem_cons_of_mem _ hq)) _ (imetaStep_m_space d)
    · have h1t : "m " ∈ t := by
        rcases List.mem_cons.mp h1 with h | h
        · exact absurd h.symm hp
        · exact h
      exact ih h1t (fun q hq => h2 q (List.mem_cons_of_mem _ hq)) _

/-- C10: a recognized key whose value is empty (an element that is
exactly the key plus its trailing space, `"url "` or `"m "`) sets the
scanned field to the empty string, which the required-field check treats
as missing: a tag whose `url` entries are all empty parses to `none`,
and likewise a tag whose `m` entries are all empty parses to `none`. -/
theorem c10_empty_value_treated_as_missing (t : List String) :
    (("url " ∈ t.tail ∧ ∀ p ∈ t.tail, strStarts p "url " = true → p = "url ") →
      (t.tail.foldl imetaStep {}).url = some "" ∧ parseImetaTag t = none) ∧
    (("m " ∈ t.tail ∧ ∀ p ∈ t.tail, strStarts p "m " = true → p = "m ") →
      (t.tail.foldl imetaStep {}).mimeType = some "" ∧ parseImetaTag t = none) := by
  constructor
  · intro hu
    have hurl : (t.tail.foldl imetaStep {}).url = some "" :=
      foldl_imeta_url_mem t.tail hu.1 hu.2 {}
    refine ⟨hurl, ?_⟩
    unfold parseImetaTag
    rw [if_pos]
    rw [hurl]
    rfl
  · intro hm
    have hmime : (t.tail.foldl imetaStep {}).mimeType = some "" :=
      foldl_imeta_mime_mem t.tail hm.1 hm.2 {}
    refine ⟨hmime, ?_⟩
    unfold parseImetaTag
    rw [if_pos]
    rw [hmime]
    simp [jsFalsyStr]

/-- C10 witness: the tag `["imeta", "url ", "m image/png"]` (empty `url`
value) scans `url` to the empty string and parses to `none`, and the tag
`["imeta", "url u", "m "]` (empty `m` value) scans `mimeType` to the
empty string and parses to `none`. -/
theorem c10_witness :
    ((["imeta", "url ", "m image/png"] : List String).tail.foldl imetaStep {}).url = some "" ∧
    parseImetaTag ["imeta", "url ", "m image/png"] = none ∧
    ((["imeta", "url u", "m "] : List String).tail.foldl imetaStep {}).mimeType = some "" ∧
    parseImetaTag ["imeta", "url u", "m "] = none := by
  have h1 := (c10_empty_value_treated_as_missing ["imeta", "url ", "m image/png"]).1
    ⟨by decide, by decide⟩
  have h2 := (c10_empty_value_treated_as_missing ["imeta", "url u", "m "]).2
    ⟨by decide, by decide⟩
  exact ⟨h1.1, h1.2, h2.1, h2.2⟩

/-- C2 counterexample: `parseEvent` itself does NOT return `none` on a
recognized-type record with zero valid `imeta` descriptors — it returns
a `MediaEvent` whose `media` list is empty. -/
theorem c2_counterexample :
    parseEvent c2event ≠ none ∧
    (parseEvent c2event).map (fun m => m.media) = some [] := by
  constructor
  · decide
  · decide

/-- C2 (amended): `parseEvent` returns a `MediaEvent` for every
recognized-kind record even when no descriptor parses (`media = []`);
the non-empty-media requirement is enforced at the call sites — the
`onevent` handler of `subscribeToMediaFeed` (modelled by
`liveEventFilter`) forwards an event only if its descriptor list is
non-empty, and in particular drops every recognized-type record whose
tags yield zero valid `imeta` descriptors. -/
theorem c2_media_filter_at_call_site (e : NEvent) (m : MediaEvent) :
    (liveEventFilter e = some m → m.media ≠ []) ∧
    ((e.kind = 20 ∨ e.kind = 22) →
      parseEvent e ≠ none ∧
      ((e.tags.filter (fun tag => tag[0]? == some "imeta")).filterMap parseImetaTag = [] →
        liveEventFilter e = none)) := by
  have hbig : ∀ hk : e.kind = 20 ∨ e.kind = 22, ¬(e.kind ≠ 20 ∧ e.kind ≠ 22) := by
    intro hk hcon
    rcases hk with h | h
    · exact hcon.1 h
    · exact hcon.2 h
  constructor
  · intro h
    unfold liveEventFilter at h
    cases hp : parseEvent e with
    | none => rw [hp] at h; exact absurd h (by simp)
    | some me =>
      rw [hp] at h
      have h2 : (if me.media.length > 0 then some me else none) = some m := h
      by_cases hl : me.media.length > 0
      · rw [if_pos hl] at h2
        cases h2
        exact List.ne_nil_of_length_pos hl
      · rw [if_neg hl] at h2
        exact absurd h2 (by simp)
  · intro hk
    constructor
    · unfold parseEvent
      rw [if_neg (hbig hk)]
      simp
    · intro hmedia
      unfold liveEventFilter parseEvent
      rw [if_neg (hbig hk)]
      simp only [hmedia, List.length_nil, gt_iff_lt, lt_self_iff_false, if_false]

/-- C2 witness: on a kind-20 record with zero valid `imeta` tags,
`parseEvent` still returns an event but the live delivery filter drops
it. -/
theorem c2_witness :
    parseEvent c2wEvent ≠ none ∧ liveEventFilter c2wEvent = none := by
  have h := (c2_media_filter_at_call_site c2wEvent (mkME "w" 0)).2 (Or.inl rfl)
  exact ⟨h.1, h.2 (by decide)⟩

/-- Helper: `find?` returns the first match of a decomposed list. -/
theorem find_first_of_decomp {α : Type} (p : α → Bool) (a : α) :
    ∀ (pre post : List α), (∀ q ∈ pre, p q = false) → p a = true →
      (pre ++ a :: post).find? p = some a := by
  intro pre
  induction pre with
  | nil =>
    intro post _ ha
    simp [List.find?_cons, ha]
  | cons b t ih =>
    intro post h ha
    have hb : p b = false := h b (List.mem_cons_self b t)
    simp only [List.cons_append, List.find?_cons, hb]
    exact ih post (fun q hq => h q (List.mem_cons_of_mem b hq)) ha

/-- C9 counterexample: on a kind-22 record with a valid `imeta` tag and a
`duration` tag whose value `"abc"` is unparsable, the `duration` field of
the resulting event is NaN — present, not `none` as the claim states. -/
theorem c9_counterexample :
    (parseEvent c9event).map (fun m => m.duration) = some (some JsNum.nan) := by
  decide

/-- C9 (amended): for every recognized-type record, `duration` comes from
the first tag whose discriminator is `"duration"`: when no such tag
exists the field is absent (`none`, not an error); when the tag exists
the field holds `parseInt` of its second element, which is the parsed
integer for a value with a digit prefix (e.g. `"45" ↦ 45`) and NaN — a
present value, not `none` — for an unparsable one; `published_at`
behaves the same way for the first `"published_at"` tag. -/
theorem c9_duration_published_at (e : NEvent) (hk : e.kind = 20 ∨ e.kind = 22) :
    ((∀ t ∈ e.tags, t[0]? ≠ some "duration") →
      ∃ m, parseEvent e = some m ∧ m.duration = none) ∧
    (∀ pre dtag post, e.tags = pre ++ dtag :: post →
      (∀ t ∈ pre, t[0]? ≠ some "duration") → dtag[0]? = some "duration" →
      ∃ m, parseEvent e = some m ∧ m.duration = some (jsParseIntOpt dtag[1]?)) ∧
    ((∀ t ∈ e.tags, t[0]? ≠ some "published_at") →
      ∃ m, parseEvent e = some m ∧ m.published_at = none) ∧
    (∀ pre ptag post, e.tags = pre ++ ptag :: post →
      (∀ t ∈ pre, t[0]? ≠ some "published_at") → ptag[0]? = some "published_at" →
      ∃ m, parseEvent e = some m ∧ m.published_at = some (jsParseIntOpt ptag[1]?)) ∧
    jsParseInt "45" = JsNum.int 45 := by
  have hbig : ¬(e.kind ≠ 20 ∧ e.kind ≠ 22) := by
    intro hcon
    rcases hk with h | h
    · exact hcon.1 h
    · exact hcon.2 h
  have hpe : parseEvent e = some
      { id := e.id, pubkey := e.pubkey, created_at := e.created_at,
        kind := e.kind, content := e.content, tags := e.tags,
        title := (e.tags.find? (fun tag => tag[0]? == some "title")).bind
          (fun tag => tag[1]?),
        media := (e.tags.filter (fun tag => tag[0]? == some "imeta")).filterMap
          parseImetaTag,
        duration := (e.tags.find? (fun tag => tag[0]? == some "duration")).map
          (fun tag => jsParseIntOpt tag[1]?),
        published_at := (e.tags.find? (fun tag => tag[0]? == some "published_at")).map
          (fun tag => jsParseIntOpt tag[1]?) } := by
    unfold parseEvent
    rw [if_neg hbig]
  refine ⟨?_, ?_, ?_, ?_, by decide⟩
  · intro habs
    have hfind : e.tags.find? (fun tag => tag[0]? == some "duration") = none := by
      rw [List.find?_eq_none]
      intro t ht hbeq
      exact habs t ht (by simpa using hbeq)
    refine ⟨_, hpe, ?_⟩
    show (e.tags.find? (fun tag => tag[0]? == some "duration")).map
      (fun tag => jsParseIntOpt tag[1]?) = none
    rw [hfind]
    rfl
  · intro pre dtag post htags hpre hd
    have hfind : e.tags.find? (fun tag => tag[0]? == some "duration") = some dtag := by
      rw [htags]
      refine find_first_of_decomp _ dtag pre post ?_ (by simpa using hd)
      intro q hq
      have := hpre q hq
      simpa using this
    refine ⟨_, hpe, ?_⟩
    show (e.tags.find? (fun tag => tag[0]? == some "duration")).map
      (fun tag => jsParseIntOpt tag[1]?) = some (jsParseIntOpt dtag[1]?)
    rw [hfind]
    rfl
  · intro habs
    have hfind : e.tags.find? (fun tag => tag[0]? == some "published_at") = none := by
      rw [List.find?_eq_none]
      intro t ht hbeq
      exact habs t ht (by simpa using hbeq)
    refine ⟨_, hpe, ?_⟩
    show (e.tags.find? (fun tag => tag[0]? == some "published_at")).map
      (fun tag => jsParseIntOpt tag[1]?) = none
    rw [hfind]
    rfl
  · intro pre ptag post htags hpre hp
    have hfind : e.tags.find? (fun tag => tag[0]? == some "published_at") = some ptag := by
      rw [htags]
      refine find_first_of_decomp _ ptag pre post ?_ (by simpa using hp)
      intro q hq
      have := hpre q hq
      simpa using this
    refine ⟨_, hpe, ?_⟩
    show (e.tags.find? (fun tag => tag[0]? == some "published_at")).map
      (fun tag => jsParseIntOpt tag[1]?) = some (jsParseIntOpt ptag[1]?)
    rw [hfind]
    rfl

/-- C9 witness: the spec scenario — a kind-22 record with one valid
`imeta` tag and a `duration` tag value `"45"` classifies to an event
with `duration = 45`. -/
theorem c9_witness :
    (parseEvent c9wEvent).map (fun m => m.duration) = some (some (JsNum.int 45)) := by
  obtain ⟨m, hm, hd⟩ :=
    (c9_duration_published_at c9wEvent (Or.inr rfl)).2.1
      [] ["duration", "45"] [["imeta", "url https://x/v.mp4", "m video/mp4"]]
      rfl (by intro t ht; cases ht) rfl
  rw [hm]
  show some m.duration = some (some (JsNum.int 45))
  rw [hd]
  decide

/-! ### Claims about the deduplicating merger -/

/-- C7: merging the same live event twice is idempotent — when the id is
already in the seen-set the merge is a no-op returning the state itself,
and a second merge of any event right after the first leaves the
sequence's length and content (indeed the whole state) unchanged. -/
theorem c7_merge_live_idempotent (s : PageState) (e : MediaEvent) :
    (s.seenEventIds.contains e.id = true → mergeLive s e = s) ∧
    mergeLive (mergeLive s e) e = mergeLive s e := by
  constructor
  · intro h
    unfold mergeLive
    rw [if_pos h]
  · by_cases h : s.seenEventIds.contains e.id = true
    · have h1 : mergeLive s e = s := by unfold mergeLive; rw [if_pos h]
      rw [h1]
      exact h1
    · have h1 : mergeLive s e =
          { s with
            seenEventIds := e.id :: s.seenEventIds,
            mediaEvents := (sortByCreatedDesc (e :: s.mediaEvents)).take 100 } := by
        unfold mergeLive
        rw [if_neg h]
      rw [h1]
      unfold mergeLive
      rw [if_pos]
      show (e.id :: s.seenEventIds).contains e.id = true
      simp

/-- C7 witness: re-merging an event whose id is already in the seen-set
returns the state unchanged. -/
theorem c7_witness : mergeLive c7s c7e = c7s :=
  (c7_merge_live_idempotent c7s c7e).1 (by decide)

/-- C6 counterexample: a state already above the live bound (reachable
through historical pagination) stays above it after a live merge of a
duplicate event, because the duplicate branch is a no-op and performs no
truncation — so the sequence length can exceed 100 after a live merge. -/
theorem c6_counterexample :
    mergeLive c6s c6dup = c6s ∧ 100 < (mergeLive c6s c6dup).mediaEvents.length := by
  constructor
  · decide
  · decide

/-- C6 (amended): a live merge of an unseen event truncates the sequence
to the newest 100 and evicts exactly the lowest-timestamp entries, and
from any state within the bound every live merge stays within the bound;
historical merges do not truncate — from the 101-event state `c6s` one
historical page grows the feed to 102 — and a duplicate live merge on
such an over-bound state leaves it over the bound (see the
counterexample). -/
theorem c6_live_bound_historical_growth (s : PageState) (e : MediaEvent) :
    (s.mediaEvents.length ≤ 100 → (mergeLive s e).mediaEvents.length ≤ 100) ∧
    (s.seenEventIds.contains e.id = false →
      (mergeLive s e).mediaEvents.length ≤ 100 ∧
      ∀ x ∈ (sortByCreatedDesc (e :: s.mediaEvents)).drop 100,
        ∀ y ∈ (mergeLive s e).mediaEvents, x.created_at ≤ y.created_at) ∧
    (loadMoreEvents c6histQuery c6s 0).mediaEvents.length = 102 := by
  refine ⟨?_, ?_, by decide⟩
  · intro hlen
    unfold mergeLive
    by_cases h : s.seenEventIds.contains e.id = true
    · rw [if_pos h]
      exact hlen
    · rw [if_neg h]
      exact List.length_take_le _ _
  · intro hf
    have hnot : ¬ (s.seenEventIds.contains e.id = true) := by
      rw [hf]
      simp
    have hmerge : (mergeLive s e).mediaEvents =
        (sortByCreatedDesc (e :: s.mediaEvents)).take 100 := by
      unfold mergeLive
      rw [if_neg hnot]
    constructor
    · rw [hmerge]
      exact List.length_take_le _ _
    · intro x hx y hy
      rw [hmerge] at hy
      have hsorted : List.Sorted byCreatedDesc (sortByCreatedDesc (e :: s.mediaEvents)) := by
        unfold sortByCreatedDesc
        exact List.sorted_insertionSort byCreatedDesc (e :: s.mediaEvents)
      have hpw : List.Pairwise byCreatedDesc
          ((sortByCreatedDesc (e :: s.mediaEvents)).take 100 ++
            (sortByCreatedDesc (e :: s.mediaEvents)).drop 100) := by
        rw [List.take_append_drop]
        exact hsorted
      exact (List.pairwise_append.mp hpw).2.2 y hy x hx

/-- C6 witness: from an in-bound state, a live merge stays within the
bound. -/
theorem c6_witness : (mergeLive c6ws c6we).mediaEvents.length ≤ 100 :=
  (c6_live_bound_historical_growth c6ws c6we).1 (by decide)

/-! ### Claims about pagination -/

/-- C3: a reachable trace violating the ordering invariant. Start from a
historically loaded feed `[100, 50]` with cursor 50, merge a live event
with timestamp 10 (the live path keeps the sequence sorted but does not
move the pagination cursor), then load one historical page returning an
unseen event with timestamp 40: `loadMoreEvents` appends it with
`mediaEvents = [...mediaEvents, ...newEvents]` — despite the source
comment claiming to be `maintaining chronological order` and the spec
requiring a full re-sort — so the sequence becomes `[100, 50, 10, 40]`,
which is not sorted descending. -/
theorem c3_historical_append_breaks_order :
    sortedDescBool (loadMoreEvents c3query (mergeLive c3s0 c3live) 0).mediaEvents = false := by
  decide

/-- C1: when the underlying historical query fails, `fetchMediaEvents`
catches the failure and resolves with `[]`, so `getOlderEvents` never
rejects; `loadMoreEvents` therefore takes the empty-page branch: it sets
the `hasMoreEvents` exhaustion flag, performs no backoff retry, surfaces
no error, and leaves the cursor unchanged — its own catch/backoff branch
is unreachable. The claimed behaviour (3 backoff retries, then a
transient error with the exhaustion flag unset) never happens. -/
theorem c1_network_failure_swallowed :
    loadMoreComposed c1query c1state 0 = { c1state with hasMoreEvents := false } ∧
    (loadMoreComposed c1query c1state 0).error = none ∧
    (loadMoreComposed c1query c1state 0).oldestLoadedTimestamp = some 1000000 := by
  refine ⟨by decide, by decide, by decide⟩

/-- C4 counterexample: with a relay answering every page with one
already-seen event, a single `loadMoreEvents` call runs the duplicate
cascade: the cursor is decremented three times (999000 − 3·86400 =
739800), a fourth duplicate page is still fetched, and the controller
then sets `hasMoreEvents = false` — the very exhaustion flag used for
the terminal empty-page case — after which pagination is permanently
disabled: even a relay with fresh events can no longer be consulted. -/
theorem c4_counterexample :
    (loadMoreEvents c4query c4s 0).hasMoreEvents = false ∧
    (loadMoreEvents c4query c4s 0).oldestLoadedTimestamp = some 739800 ∧
    loadMoreEvents c4fresh (loadMoreEvents c4query c4s 0) 0 =
      loadMoreEvents c4query c4s 0 := by
  refine ⟨by decide, by decide, by decide⟩

/-- C5 counterexample: the cursor is not strictly decreasing. With cursor
50, a page containing an unseen event timestamped exactly 50 (legitimate:
the `until` bound of the query is inclusive) is merged, the state changes,
the controller is not exhausted, and the cursor is re-assigned the very
same value 50. -/
theorem c5_counterexample :
    (loadMoreEvents c5query c5s 0).oldestLoadedTimestamp = some 50 ∧
    (loadMoreEvents c5query c5s 0).hasMoreEvents = true ∧
    (loadMoreEvents c5query c5s 0).mediaEvents ≠ c5s.mediaEvents := by
  refine ⟨by decide, by decide, by decide⟩


/-! ### Helper lemmas about the pagination recursion -/

theorem guard_false_of (s : PageState) (c : Int)
    (hl : s.isLoadingMore = false) (hm : s.hasMoreEvents = true)
    (hc : s.oldestLoadedTimestamp = some c) (h0 : c ≠ 0) :
    (s.isLoadingMore || !s.hasMoreEvents || !(jsTruthyTs s.oldestLoadedTimestamp)) = false := by
  rw [hl, hm, hc]
  simp [jsTruthyTs, h0]

theorem loadMoreBody_noMore (getOlder : Int → Except String (List MediaEvent))
    (s : PageState) (k : Option (PageState → PageState)) (h : s.hasMoreEvents = false) :
    loadMoreBody getOlder s k = s := by
  rw [loadMoreBody.eq_def, if_pos (show (s.isLoadingMore || !s.hasMoreEvents ||
    !(jsTruthyTs s.oldestLoadedTimestamp)) = true by rw [h]; simp)]

theorem loadMoreFuel_noMore (getOlder : Int → Except String (List MediaEvent))
    (fuel : Nat) (s : PageState) (h : s.hasMoreEvents = false) :
    loadMoreFuel getOlder fuel s = s := by
  cases fuel with
  | zero => exact loadMoreBody_noMore getOlder s none h
  | succ f => exact loadMoreBody_noMore getOlder s _ h

theorem loadMoreBody_dup (getOlder : Int → Except String (List MediaEvent))
    (s : PageState) (c : Int) (k : Option (PageState → PageState))
    (hl : s.isLoadingMore = false) (hm : s.hasMoreEvents = true)
    (hc : s.oldestLoadedTimestamp = some c) (h0 : c ≠ 0)
    (l : List MediaEvent) (hg : getOlder c = Except.ok l) (hne : l ≠ [])
    (hseen : ∀ e ∈ l, s.seenEventIds.contains e.id = true) :
    loadMoreBody getOlder s k =
      (match k with
       | some kf => kf { s with oldestLoadedTimestamp := some (c - 86400) }
       | none => { s with hasMoreEvents := false }) := by
  have hguard := guard_false_of s c hl hm hc h0
  have hlen : ¬ (l.length = 0) := fun hz => hne (List.length_eq_zero.mp hz)
  have hfilter : l.filter (fun e => !(s.seenEventIds.contains e.id)) = [] := by
    apply List.filter_eq_nil_iff.mpr
    intro e he
    rw [hseen e he]
    decide
  rw [loadMoreBody.eq_def]
  rw [if_neg (show ¬ ((s.isLoadingMore || !s.hasMoreEvents ||
    !(jsTruthyTs s.oldestLoadedTimestamp)) = true) by rw [hguard]; simp)]
  rw [hc]
  simp only [hg, hfilter, hlen, if_neg, List.length_nil, gt_iff_lt, lt_self_iff_false,
    if_false]

theorem foldl_min_le_init (es : List MediaEvent) :
    ∀ a : Int, es.foldl (fun m ev => min m ev.created_at) a ≤ a := by
  induction es with
  | nil => intro a; exact le_refl a
  | cons q t ih =>
    intro a
    rw [List.foldl_cons]
    exact le_trans (ih (min a q.created_at)) (min_le_left _ _)

theorem minCreatedAt_le (l : List MediaEvent) (c : Int)
    (hne : l ≠ []) (h : ∀ e ∈ l, e.created_at ≤ c) : minCreatedAt l ≤ c := by
  cases l with
  | nil => exact absurd rfl hne
  | cons q es =>
    unfold minCreatedAt
    exact le_trans (foldl_min_le_init es q.created_at) (h q (List.mem_cons_self q es))

theorem loadMoreBody_cursor_mono (getOlder : Int → Except String (List MediaEvent))
    (hq : ∀ cq lq, getOlder cq = Except.ok lq → ∀ e ∈ lq, e.created_at ≤ cq)
    (k : Option (PageState → PageState))
    (hk : ∀ kf, k = some kf → ∀ (s2 : PageState) (c2 : Int),
      s2.oldestLoadedTimestamp = some c2 →
      ∃ c3, (kf s2).oldestLoadedTimestamp = some c3 ∧ c3 ≤ c2)
    (s : PageState) (c : Int) (hc : s.oldestLoadedTimestamp = some c) :
    ∃ c2, (loadMoreBody getOlder s k).oldestLoadedTimestamp = some c2 ∧ c2 ≤ c := by
  rw [loadMoreBody.eq_def]
  split
  · exact ⟨c, hc, le_refl c⟩
  split
  · exact ⟨c, hc, le_refl c⟩
  next cursor heq =>
    have hcur : cursor = c := by rw [hc] at heq; exact (Option.some.inj heq).symm
    subst hcur
    split
    · split
      · rename_i kf
        exact hk kf rfl s cursor hc
      · exact ⟨cursor, hc, le_refl cursor⟩
    next olderEvents hok =>
      split
      · exact ⟨cursor, hc, le_refl cursor⟩
      next hlen =>
        dsimp only
        split
        · next hpos =>
          refine ⟨minCreatedAt (olderEvents.filter (fun e => !(s.seenEventIds.contains e.id))),
            rfl, ?_⟩
          apply minCreatedAt_le _ cursor
          · intro hnil
            rw [hnil] at hpos
            exact absurd hpos (by decide)
          · intro e he
            exact hq cursor olderEvents hok e (List.mem_of_mem_filter he)
        · split
          · rename_i kf
            obtain ⟨c3, hh, hle⟩ := hk kf rfl
              { s with oldestLoadedTimestamp := some (cursor - 86400) } (cursor - 86400) rfl
            exact ⟨c3, hh, by omega⟩
          · exact ⟨cursor, hc, le_refl cursor⟩

theorem loadMoreFuel_cursor_mono (getOlder : Int → Except String (List MediaEvent))
    (hq : ∀ cq lq, getOlder cq = Except.ok lq → ∀ e ∈ lq, e.created_at ≤ cq) :
    ∀ (fuel : Nat) (s : PageState) (c : Int), s.oldestLoadedTimestamp = some c →
      ∃ c2, (loadMoreFuel getOlder fuel s).oldestLoadedTimestamp = some c2 ∧ c2 ≤ c := by
  intro fuel
  induction fuel with
  | zero =>
    intro s c hc
    exact loadMoreBody_cursor_mono getOlder hq none (by intro kf h; cases h) s c hc
  | succ f ih =>
    intro s c hc
    refine loadMoreBody_cursor_mono getOlder hq (some (loadMoreFuel getOlder f)) ?_ s c hc
    intro kf hkf s2 c2 hc2
    cases hkf
    exact ih s2 c2 hc2

/-- C5 (amended): the pagination cursor is non-increasing rather than
strictly decreasing. Whenever the relay answers respect the inclusive
`until` bound of the query (every returned event is timestamped at or
before the requested cursor), any `loadMoreEvents` call — including its
internal duplicate/backoff retries — leaves the cursor at a value less
than or equal to its previous value, and the cursor stays initialized;
it can stay exactly equal when a page contains an unseen event
timestamped at the cursor (see the counterexample). -/
theorem c5_cursor_nonincreasing (getOlder : Int → Except String (List MediaEvent))
    (s : PageState) (c c2 : Int) (r : Nat)
    (hq : ∀ cq lq, getOlder cq = Except.ok lq → ∀ e ∈ lq, e.created_at ≤ cq)
    (hc : s.oldestLoadedTimestamp = some c)
    (h2 : (loadMoreEvents getOlder s r).oldestLoadedTimestamp = some c2) :
    c2 ≤ c := by
  obtain ⟨c3, hh, hle⟩ := loadMoreFuel_cursor_mono getOlder hq (3 - r) s c hc
  unfold loadMoreEvents at h2
  rw [h2] at hh
  have := Option.some.inj hh
  omega

/-- C5 witness: an exhausting empty page leaves the cursor at its
previous value 5, and 5 ≤ 5. -/
theorem c5_witness :
    (loadMoreEvents c5emptyQuery c5ws 0).oldestLoadedTimestamp = some 5 ∧ (5 : Int) ≤ 5 :=
  ⟨by decide, c5_cursor_nonincreasing c5emptyQuery c5ws 5 5 0
    (by intro cq lq hl e he; cases hl; cases he) rfl (by decide)⟩

/-- C4 (amended): with the retry counter starting at 0, each of the
first three duplicates-only pages decrements the cursor by one day
(86400) and retries; a FOURTH query is then issued at the
thrice-decremented cursor, and when it too returns only duplicates the
controller sets `hasMoreEvents = false` — the same exhaustion flag as
the terminal empty-page case, not a distinct recoverable signal — after
which every further `loadMoreEvents` call, with any relay and any retry
count, is a no-op for the whole session. -/
theorem c4_duplicate_cascade (getOlder : Int → Except String (List MediaEvent))
    (s : PageState) (c : Int)
    (hl : s.isLoadingMore = false) (hm : s.hasMoreEvents = true)
    (hc : s.oldestLoadedTimestamp = some c)
    (h0 : c ≠ 0) (h1 : c - 86400 ≠ 0) (h2 : c - 172800 ≠ 0) (h3 : c - 259200 ≠ 0)
    (l0 l1 l2 l3 : List MediaEvent)
    (hg0 : getOlder c = Except.ok l0) (hne0 : l0 ≠ [])
    (hs0 : ∀ e ∈ l0, s.seenEventIds.contains e.id = true)
    (hg1 : getOlder (c - 86400) = Except.ok l1) (hne1 : l1 ≠ [])
    (hs1 : ∀ e ∈ l1, s.seenEventIds.contains e.id = true)
    (hg2 : getOlder (c - 172800) = Except.ok l2) (hne2 : l2 ≠ [])
    (hs2 : ∀ e ∈ l2, s.seenEventIds.contains e.id = true)
    (hg3 : getOlder (c - 259200) = Except.ok l3) (hne3 : l3 ≠ [])
    (hs3 : ∀ e ∈ l3, s.seenEventIds.contains e.id = true) :
    loadMoreEvents getOlder s 0 =
      { s with oldestLoadedTimestamp := some (c - 259200), hasMoreEvents := false } ∧
    ∀ (getOlder2 : Int → Except String (List MediaEvent)) (r2 : Nat),
      loadMoreEvents getOlder2
        { s with oldestLoadedTimestamp := some (c - 259200), hasMoreEvents := false } r2 =
      { s with oldestLoadedTimestamp := some (c - 259200), hasMoreEvents := false } := by
  have harith2 : c - 86400 - 86400 = c - 172800 := by omega
  have harith3 : c - 172800 - 86400 = c - 259200 := by omega
  constructor
  · show loadMoreFuel getOlder 3 s = _
    rw [show loadMoreFuel getOlder 3 s =
      loadMoreBody getOlder s (some (loadMoreFuel getOlder 2)) from rfl]
    rw [loadMoreBody_dup getOlder s c _ hl hm hc h0 l0 hg0 hne0 hs0]
    show loadMoreFuel getOlder 2 { s with oldestLoadedTimestamp := some (c - 86400) } = _
    rw [show loadMoreFuel getOlder 2 { s with oldestLoadedTimestamp := some (c - 86400) } =
      loadMoreBody getOlder { s with oldestLoadedTimestamp := some (c - 86400) }
        (some (loadMoreFuel getOlder 1)) from rfl]
    rw [loadMoreBody_dup getOlder { s with oldestLoadedTimestamp := some (c - 86400) }
      (c - 86400) (some (loadMoreFuel getOlder 1)) hl hm rfl h1 l1 hg1 hne1 hs1]
    show loadMoreFuel getOlder 1
      { s with oldestLoadedTimestamp := some (c - 86400 - 86400) } = _
    rw [harith2]
    rw [show loadMoreFuel getOlder 1 { s with oldestLoadedTimestamp := some (c - 172800) } =
      loadMoreBody getOlder { s with oldestLoadedTimestamp := some (c - 172800) }
        (some (loadMoreFuel getOlder 0)) from rfl]
    rw [loadMoreBody_dup getOlder { s with oldestLoadedTimestamp := some (c - 172800) }
      (c - 172800) (some (loadMoreFuel getOlder 0)) hl hm rfl h2 l2 hg2 hne2 hs2]
    show loadMoreFuel getOlder 0
      { s with oldestLoadedTimestamp := some (c - 172800 - 86400) } = _
    rw [harith3]
    rw [show loadMoreFuel getOlder 0 { s with oldestLoadedTimestamp := some (c - 259200) } =
      loadMoreBody getOlder { s with oldestLoadedTimestamp := some (c - 259200) }
        none from rfl]
    rw [loadMoreBody_dup getOlder { s with oldestLoadedTimestamp := some (c - 259200) }
      (c - 259200) none hl hm rfl h3 l3 hg3 hne3 hs3]
  · intro getOlder2 r2
    exact loadMoreFuel_noMore getOlder2 (3 - r2) _ rfl

/-- C4 witness: the concrete duplicates-only cascade from cursor 999000
lands on cursor 999000 − 259200 with the exhaustion flag set. -/
theorem c4_witness :
    loadMoreEvents c4query c4s 0 =
      { c4s with oldestLoadedTimestamp := some (999000 - 259200),
                 hasMoreEvents := false } :=
  (c4_duplicate_cascade c4query c4s 999000 rfl rfl rfl
    (by decide) (by decide) (by decide) (by decide)
    _ _ _ _
    rfl (by decide) (by decide)
    rfl (by decide) (by decide)
    rfl (by decide) (by decide)
    rfl (by decide) (by decide)).1

end Quickfeed
